import Mathlib

/-!
Verification of the translation-audit scanner (`translation-audit/server.py`).

The development shallowly embeds the Python module: JSON values parsed by
`json.load` become the inductive `Json`; Python strings are `String`
(sequences of Unicode code points, accessed as `List Char`); Python method
calls that can raise (`.get` on a non-dict, `.strip` on a non-string,
iteration of a non-iterable, …) are modelled in `Except PyErr`.  The regular
expressions of `_NON_TRANSLATABLE_RE` are translated to executable character
matchers, including Python's `$` semantics (`$` also matches just before a
single trailing newline) and the non-DOTALL `.`.  Character-class predicates
(`\d`, `\s`, `str.isalpha`) are modelled on the ASCII range plus the accented
letters of the module's language tables, which covers every string the
scanner distinguishes.
-/

/-- Whitespace accepted by Python's `str.strip` / regex `\s` (ASCII range). -/
def isPySpace (c : Char) : Bool :=
  c == ' ' || c == '\t' || c == '\n' || c == '\r' || c == '\x0b' || c == '\x0c'

/-- Python `str.strip()`: drop whitespace from both ends. -/
def pyStrip (cs : List Char) : List Char :=
  ((cs.dropWhile isPySpace).reverse.dropWhile isPySpace).reverse

/-- The accented letters occurring in the module's `LANGUAGE_CHARS` tables. -/
def accentedLetters : List Char :=
  "åäöÅÄÖæøÆØßüÜéèêëàâùûçîïôÉÈÊËÀÂÙÛÇÎÏÔñáíóúÑÁÍÓÚãõÃÕÂÊìòÌÒąćęłńśźżĄĆĘŁŃŚŹŻ".data

/-- Python `str.isalpha` restricted to ASCII letters plus `accentedLetters`. -/
def pyIsAlpha (c : Char) : Bool :=
  c.isAlpha || accentedLetters.contains c

/-- Source `_strip_quotes`: strip, then remove one matching pair of quotes. -/
def stripQuotes (text : List Char) : List Char :=
  let s := pyStrip text
  match s with
  | [] => []
  | c :: rest =>
      if rest ≠ [] && s.getLast? == some c && (c == '\'' || c == '"') then
        (c :: rest).dropLast.drop 1
      else s

/-- Python `$`: matches at the very end, or just before one trailing newline. -/
def pyDollar (cs : List Char) : Bool :=
  cs.isEmpty || cs == ['\n']

/-- Hexadecimal digit as matched by `[0-9a-fA-F]`. -/
def isHexDigitCh (c : Char) : Bool :=
  c.isDigit || (decide ('a' ≤ c) && decide (c ≤ 'f')) || (decide ('A' ≤ c) && decide (c ≤ 'F'))

/-- Pattern `^#[0-9a-fA-F]{3,8}$`. -/
def matchHexColor : List Char → Bool
  | '#' :: rest =>
      let ds := rest.takeWhile isHexDigitCh
      let tl := rest.dropWhile isHexDigitCh
      decide (3 ≤ ds.length) && decide (ds.length ≤ 8) && pyDollar tl
  | _ => false

/-- Pattern `^rgba?\(` (an unanchored-end match: just a required start). -/
def matchRgba (cs : List Char) : Bool :=
  List.isPrefixOf ['r', 'g', 'b', '('] cs || List.isPrefixOf ['r', 'g', 'b', 'a', '('] cs

/-- Pattern `^-?\d+(\.\d+)?[DL]?$`. -/
def matchNumber (cs : List Char) : Bool :=
  let body := match cs with
    | '-' :: rest => rest
    | _ => cs
  let d1 := body.takeWhile Char.isDigit
  let r1 := body.dropWhile Char.isDigit
  if d1.isEmpty then false
  else
    let r2 := match r1 with
      | '.' :: rest =>
          if (rest.takeWhile Char.isDigit).isEmpty then r1
          else rest.dropWhile Char.isDigit
      | _ => r1
    let r3 := match r2 with
      | 'D' :: rest => rest
      | 'L' :: rest => rest
      | _ => r2
    pyDollar r3

/-- Pattern `^(true|false)$` with `re.I`. -/
def matchBoolLit (cs : List Char) : Bool :=
  let low := cs.map Char.toLower
  (List.isPrefixOf ['t', 'r', 'u', 'e'] low && pyDollar (low.drop 4)) ||
  (List.isPrefixOf ['f', 'a', 'l', 's', 'e'] low && pyDollar (low.drop 5))

/-- Tail of `^datetime'.*'$` after the opening quote: a newline-free body,
a closing quote, and a `$` position (optionally one trailing newline). -/
def dtTail (rest : List Char) : Bool :=
  (rest.getLast? == some '\'' && rest.dropLast.all (fun c => !(c == '\n'))) ||
  (rest.getLast? == some '\n' && rest.dropLast.getLast? == some '\'' &&
    rest.dropLast.dropLast.all (fun c => !(c == '\n')))

/-- Pattern `^datetime'.*'$` (`.` does not match a newline). -/
def matchDatetime (cs : List Char) : Bool :=
  if List.isPrefixOf ['d', 'a', 't', 'e', 't', 'i', 'm', 'e', '\''] cs then
    dtTail (cs.drop 9)
  else false

/-- Pattern `^null$`. -/
def matchNullLit (cs : List Char) : Bool :=
  List.isPrefixOf ['n', 'u', 'l', 'l'] cs && pyDollar (cs.drop 4)

/-- Pattern `^https?://` (a required start, end unanchored). -/
def matchUrl (cs : List Char) : Bool :=
  List.isPrefixOf ['h', 't', 't', 'p', ':', '/', '/'] cs ||
  List.isPrefixOf ['h', 't', 't', 'p', 's', ':', '/', '/'] cs

/-- Character class `[\d\s.,;:/%+\-–—=<>()]`. -/
def symbolicChar (c : Char) : Bool :=
  c.isDigit || isPySpace c ||
  ['.', ',', ';', ':', '/', '%', '+', '-', '–', '—', '=', '<', '>', '(', ')'].contains c

/-- Pattern `^[\d\s.,;:/%+\-–—=<>()]+$`: a nonempty all-symbolic string
(the `$` subtlety is absorbed because a newline is itself in the class). -/
def matchSymbolic (cs : List Char) : Bool :=
  !cs.isEmpty && cs.all symbolicChar

/-- Substring test: does `needle` occur contiguously inside `hay`? -/
def hasSub (needle : List Char) : List Char → Bool
  | [] => needle.isEmpty
  | c :: t => List.isPrefixOf needle (c :: t) || hasSub needle t

/-- Keywords of `_FONT_RE`, in the alternation's order. -/
def fontKeywords : List (List Char) :=
  ["serif", "sans-serif", "mono", "wf_", "segoe", "helvetica", "arial", "calibri",
   "cambria", "verdana", "tahoma", "trebuchet", "georgia", "consolas", "courier"].map String.data

/-- Source `_FONT_RE.search` (case-insensitive, anywhere in the string). -/
def fontSearch (cs : List Char) : Bool :=
  let low := cs.map Char.toLower
  fontKeywords.any (fun k => hasSub k low)

/-- The list `_NON_TRANSLATABLE_RE`, in source order. -/
def nonTranslatablePatterns : List (List Char → Bool) :=
  [matchHexColor, matchRgba, matchNumber, matchBoolLit, matchDatetime,
   matchNullLit, matchUrl, matchSymbolic]

/-- Source `_is_non_translatable`. -/
def isNonTranslatable (raw : List Char) : Bool :=
  let clean := stripQuotes (pyStrip raw)
  if clean.length < 2 then true
  else if nonTranslatablePatterns.any (fun p => p clean) then true
  else if fontSearch clean && (clean.contains ',' || clean.contains '\'') then true
  else false

/-- Source `_has_target_chars`: some character of `text` lies in `target`. -/
def hasTargetChars (text : List Char) (target : List Char) : Bool :=
  text.any (fun c => target.contains c)

/-- Source `_is_readable`. -/
def isReadable (text : List Char) : Bool :=
  let clean := stripQuotes (pyStrip text)
  if !clean.any pyIsAlpha then false
  else if clean.head? == some '_' && !clean.contains ' ' then false
  else true

/-- JSON values as produced by `json.load` (numbers restricted to integers,
which covers every numeric literal the scanner distinguishes). -/
inductive Json where
  | null
  | bool (b : Bool)
  | num (n : Int)
  | str (s : String)
  | arr (elems : List Json)
  | obj (fields : List (String × Json))

/-- Python exceptions that the module can let escape. -/
inductive PyErr where
  | attributeError
  | typeError
  | keyError
deriving DecidableEq

/-- Last-wins association lookup: a `dict` built from a JSON object keeps the
last occurrence of a duplicated key. -/
def alookup {β : Type} (l : List (String × β)) (k : String) : Option β :=
  l.foldl (fun acc kv => if kv.1 = k then some kv.2 else acc) none

/-- Worker for `dedupFields`: skip keys already emitted. -/
def dedupGo : List (String × Json) → List String → List (String × Json)
  | [], _ => []
  | (k, v) :: rest, seen =>
      if seen.contains k then dedupGo rest seen
      else (k, (alookup rest k).getD v) :: dedupGo rest (k :: seen)

/-- Fields of a parsed dict: first-occurrence order, last-occurrence value. -/
def dedupFields (fs : List (String × Json)) : List (String × Json) :=
  dedupGo fs []

mutual

/-- Python `==` on parsed JSON values (`True == 1`, `False == 0` included).
Dicts are compared structurally on their field lists; this is exact for every
comparison the module performs, all of which are against scalar values. -/
def Json.beq : Json → Json → Bool
  | .null, .null => true
  | .bool a, .bool b => a == b
  | .bool a, .num n => (if a then (1 : Int) else 0) == n
  | .num n, .bool a => n == (if a then (1 : Int) else 0)
  | .num a, .num b => a == b
  | .str a, .str b => a == b
  | .arr a, .arr b => Json.beqList a b
  | .obj a, .obj b => Json.beqFields a b
  | _, _ => false

def Json.beqList : List Json → List Json → Bool
  | [], [] => true
  | a :: as, b :: bs => Json.beq a b && Json.beqList as bs
  | _, _ => false

def Json.beqFields : List (String × Json) → List (String × Json) → Bool
  | [], [] => true
  | (k, v) :: as, (k', v') :: bs => k == k' && Json.beq v v' && Json.beqFields as bs
  | _, _ => false

end

/-- Python truthiness of a parsed JSON value. -/
def jTruthy : Json → Bool
  | .null => false
  | .bool b => b
  | .num n => !(n == 0)
  | .str s => !(s == "")
  | .arr xs => !xs.isEmpty
  | .obj fs => !fs.isEmpty

/-- Truthiness of a `dict.get` result (`None` when the key is absent). -/
def jTruthyO : Option Json → Bool
  | none => false
  | some j => jTruthy j

/-- Lookup with default on the fields of a dict (`d.get(k, dflt)`). -/
def objGetD (fields : List (String × Json)) (k : String) (dflt : Json) : Json :=
  (alookup fields k).getD dflt

/-- Python `d.get(k, dflt)`: raises `AttributeError` unless `d` is a dict. -/
def pyGetD (j : Json) (k : String) (dflt : Json) : Except PyErr Json :=
  match j with
  | .obj fs => .ok (objGetD fs k dflt)
  | _ => .error .attributeError

/-- Python `for x in j`: list elements, dict keys, or the characters of a
string; anything else raises `TypeError`. -/
def pyIter : Json → Except PyErr (List Json)
  | .arr xs => .ok xs
  | .obj fs => .ok ((dedupFields fs).map (fun kv => Json.str kv.1))
  | .str s => .ok (s.data.map (fun c => Json.str (String.mk [c])))
  | _ => .error .typeError

/-- Python `d.values()`: raises `AttributeError` unless `d` is a dict. -/
def pyValues : Json → Except PyErr (List Json)
  | .obj fs => .ok ((dedupFields fs).map (fun kv => kv.2))
  | _ => .error .attributeError

/-- Python `d.items()`: raises `AttributeError` unless `d` is a dict. -/
def pyItems : Json → Except PyErr (List (String × Json))
  | .obj fs => .ok (dedupFields fs)
  | _ => .error .attributeError

/-- Calling a `str` method (such as `.strip()`) on a JSON value: raises
`AttributeError` unless the value is a string. -/
def asStr : Json → Except PyErr String
  | .str s => .ok s
  | _ => .error .attributeError

/-- Python `k in j` for a string `k`: key test on dicts, substring test on
strings, element test on lists; raises `TypeError` otherwise. -/
def pyContains (j : Json) (k : String) : Except PyErr Bool :=
  match j with
  | .obj fs => .ok ((alookup fs k).isSome)
  | .str s => .ok (hasSub k.data s.data)
  | .arr xs => .ok (xs.any (fun e => Json.beq e (Json.str k)))
  | _ => .error .typeError

/-- Python `j[k]` for a string key. -/
def pyIndex (j : Json) (k : String) : Except PyErr Json :=
  match j with
  | .obj fs =>
      match alookup fs k with
      | some v => .ok v
      | none => .error .keyError
  | _ => .error .typeError

/-- Membership of a `dict.get` result in a set of strings (Python `in` on a
set compares with `==`; non-strings never equal a string). -/
def strMemO (o : Option Json) (s : List String) : Bool :=
  match o with
  | some (.str x) => s.contains x
  | _ => false

/-- Python `a == b` on two `dict.get` results. -/
def pyEqO (a b : Option Json) : Bool :=
  match a, b with
  | some x, some y => Json.beq x y
  | none, none => true
  | _, _ => false

/-- Sequential traversal in `Except`, concatenating results: the shape of
every `for` loop in the module that can raise from its body. -/
def mapMCollect {α β : Type} (f : α → Except PyErr (List β)) : List α → Except PyErr (List β)
  | [] => .ok []
  | a :: as => do
      let b ← f a
      let bs ← mapMCollect f as
      pure (b ++ bs)

/-- Source `_get_literal_value`: walk a key path through nested dicts and
return the final node when it is a string (a pure function in the source:
non-dict nodes and missing keys yield `None`). -/
def getLiteral (j : Json) : List String → Option String
  | [] =>
      match j with
      | .str s => some s
      | _ => none
  | k :: ks =>
      match j with
      | .obj fs =>
          match alookup fs k with
          | some v => getLiteral v ks
          | none => none
      | _ => none

/-- A finding dict appended to one of the scanner's category lists. -/
abbrev Finding := List (String × Json)

/-- Category buckets of `scan_visual`, in the order the dict is built. -/
abbrev Cats := List (String × List Finding)

/-- The seven category keys (`_ALL_CATS`, also the dict-literal order). -/
def allCats : List String :=
  ["title_subtitle", "displayname", "missing_displayname",
   "textbox", "placeholder", "header_text", "button_text"]

/-- The initial all-empty category dict of `scan_visual`. -/
def emptyCats : Cats :=
  [("title_subtitle", []), ("displayname", []), ("missing_displayname", []),
   ("textbox", []), ("placeholder", []), ("header_text", []), ("button_text", [])]

/-- Acceptance test of the title/subTitle loop body, applied to the extracted
literal `val` (source lines: `if val:` … `if clean and not
_is_non_translatable(val) and _is_readable(clean):` … `if clean not in
known_good and not _has_target_chars(clean, target):`). -/
def titleDecision (target : List Char) (kg : List String) (val : List Char) : Bool :=
  let clean := stripQuotes val
  !val.isEmpty && !clean.isEmpty && !isNonTranslatable val && isReadable clean &&
    !kg.contains (String.mk clean) && !hasTargetChars clean target

/-- Title/subTitle loop body: extract the literal and filter it. -/
def titleFind (target : List Char) (kg : List String) (sect : String) (obj : Json) :
    Option Finding :=
  match getLiteral obj ["properties", "text", "expr", "Literal", "Value"] with
  | some val =>
      if titleDecision target kg val.data then
        some [("text", Json.str (String.mk (stripQuotes val.data))), ("section", Json.str sect)]
      else none
  | none => none

/-- Get a key with default and iterate over the result. -/
def pyGetIter (j : Json) (k : String) (dflt : Json) : Except PyErr (List Json) := do
  let v ← pyGetD j k dflt
  pyIter v

/-- The `for section in ("title", "subTitle")` loop of `scan_visual`. -/
def scanTitles (vco : Json) (target : List Char) (kg : List String) :
    Except PyErr (List Finding) :=
  mapMCollect (fun sect => do
      let items ← pyGetIter vco sect (Json.arr [])
      pure (items.filterMap (titleFind target kg sect)))
    ["title", "subTitle"]

/-- Outcome of one projection in the `queryState` walk of `scan_visual`. -/
inductive ProjOut where
  | nothing
  | missing (nqr : Json)
  | dname (dn : String) (nqr : Json)

/-- Body of the projection loop (source lines 169-177): classify one
projection entry.  Raises `AttributeError` when the entry is not a dict, or
when `displayName` compares equal to `nativeQueryRef` but is not a string
(`_is_non_translatable` then calls `.strip()` on it). -/
def projClassify (target : List Char) (skip kg : List String) (proj : Json) :
    Except PyErr ProjOut :=
  match proj with
  | Json.obj fs =>
      if jTruthyO (alookup fs "nativeQueryRef") && !jTruthyO (alookup fs "displayName") then
        if strMemO (alookup fs "nativeQueryRef") skip then .ok .nothing
        else .ok (.missing ((alookup fs "nativeQueryRef").getD Json.null))
      else if jTruthyO (alookup fs "displayName") && jTruthyO (alookup fs "nativeQueryRef") then
        if pyEqO (alookup fs "displayName") (alookup fs "nativeQueryRef") then
          match (alookup fs "displayName").getD Json.null with
          | Json.str s =>
              if !isNonTranslatable s.data && isReadable s.data then
                if !strMemO (alookup fs "nativeQueryRef") skip && !kg.contains s &&
                    !hasTargetChars s.data target then
                  .ok (.dname s ((alookup fs "nativeQueryRef").getD Json.null))
                else .ok .nothing
              else .ok .nothing
          | _ => .error .attributeError
        else .ok .nothing
      else .ok .nothing
  | _ => .error .attributeError

/-- Finding appended for a `ProjOut.dname` outcome. -/
def dnFinding : String × ProjOut → Option Finding
  | (_, .dname dn nqr) => some [("text", Json.str dn), ("nativeQueryRef", nqr)]
  | _ => none

/-- Finding appended for a `ProjOut.missing` outcome. -/
def msFinding : String × ProjOut → Option Finding
  | (bucket, .missing nqr) => some [("nativeQueryRef", nqr), ("bucket", Json.str bucket)]
  | _ => none

/-- One bucket of the `queryState` walk: skipped unless the bucket value is a
dict, otherwise every entry of its `projections` is classified. -/
def scanProjBucket (target : List Char) (skip kg : List String) (kv : String × Json) :
    Except PyErr (List (String × ProjOut)) :=
  match kv.2 with
  | Json.obj fs => do
      let projs ← pyIter (objGetD fs "projections" (Json.arr []))
      mapMCollect (fun p => do
          let o ← projClassify target skip kg p
          pure [(kv.1, o)]) projs
  | _ => pure []

/-- The `visual.query.queryState` walk (source lines 164-177), producing the
`displayname` and `missing_displayname` category lists. -/
def scanProjections (visual : Json) (target : List Char) (skip kg : List String) :
    Except PyErr (List Finding × List Finding) := do
  let q ← pyGetD visual "query" (Json.obj [])
  let qs ← pyGetD q "queryState" (Json.obj [])
  let bs ← pyItems qs
  let outs ← mapMCollect (scanProjBucket target skip kg) bs
  pure (outs.filterMap dnFinding, outs.filterMap msFinding)

/-- One text run of a textbox: `run.get("value", "").strip()` then filter. -/
def textRunFind (target : List Char) (run : Json) : Except PyErr (List Finding) :=
  match run with
  | Json.obj fs => do
      let v ← asStr (objGetD fs "value" (Json.str ""))
      let v := pyStrip v.data
      if !v.isEmpty && isReadable v && !isNonTranslatable v then
        if !hasTargetChars v target then pure [[("text", Json.str (String.mk v))]]
        else pure []
      else pure []
  | _ => .error .attributeError

/-- One paragraph of a textbox: iterate its `textRuns`. -/
def paraFind (target : List Char) (para : Json) : Except PyErr (List Finding) :=
  match para with
  | Json.obj fs => do
      let runs ← pyIter (objGetD fs "textRuns" (Json.arr []))
      mapMCollect (textRunFind target) runs
  | _ => .error .attributeError

/-- One entry of `objects["general"]`: its `properties.paragraphs`. -/
def genFind (target : List Char) (gen : Json) : Except PyErr (List Finding) :=
  match gen with
  | Json.obj fs => do
      let paras ← pyGetIter (objGetD fs "properties" (Json.obj [])) "paragraphs" (Json.arr [])
      mapMCollect (paraFind target) paras
  | _ => .error .attributeError

/-- The textbox block of `scan_visual` (source lines 179-192), run only for
`visualType == "textbox"`. -/
def scanTextbox (visual objects : Json) (target : List Char) :
    Except PyErr (List Finding) := do
  let gens ← pyGetIter objects "general" (Json.arr [])
  let a ← mapMCollect (genFind target) gens
  let paras ← pyGetIter visual "paragraphs" (Json.arr [])
  let b ← mapMCollect (paraFind target) paras
  pure (a ++ b)

/-- Placeholder loop body (source lines 197-203): a pure filter, since
`_get_literal_value` cannot raise. -/
def phObjFind (target : List Char) (obj : Json) : Option Finding :=
  match getLiteral obj ["properties", "placeholder", "expr", "Literal", "Value"] with
  | some val =>
      let clean := stripQuotes val.data
      if !clean.isEmpty && isReadable clean && !isNonTranslatable val.data then
        if !hasTargetChars clean target then some [("text", Json.str (String.mk clean))]
        else none
      else none
  | none => none

/-- The placeholder walk over `objects.values()` (source lines 194-203). -/
def scanPlaceholders (objects : Json) (target : List Char) :
    Except PyErr (List Finding) := do
  let vals ← pyValues objects
  mapMCollect (fun si =>
      match si with
      | Json.arr items => pure (items.filterMap (phObjFind target))
      | _ => pure []) vals

/-- Header loop body (source lines 210-216), same pure shape with key `text`. -/
def hdObjFind (target : List Char) (obj : Json) : Option Finding :=
  match getLiteral obj ["properties", "text", "expr", "Literal", "Value"] with
  | some val =>
      let clean := stripQuotes val.data
      if !clean.isEmpty && isReadable clean && !isNonTranslatable val.data then
        if !hasTargetChars clean target then some [("text", Json.str (String.mk clean))]
        else none
      else none
  | none => none

/-- The header walk over `objects.items()` (source lines 205-216): only the
section named `header`, and only when its value is a list. -/
def scanHeaders (objects : Json) (target : List Char) :
    Except PyErr (List Finding) := do
  let its ← pyItems objects
  mapMCollect (fun kv =>
      if kv.1 = "header" then
        match kv.2 with
        | Json.arr items => pure (items.filterMap (hdObjFind target))
        | _ => pure []
      else pure []) its

/-- Button loop body (source lines 222-229): both the `text` and `label`
properties of one object, in that order. -/
def btnObjFind (target : List Char) (obj : Json) : List Finding :=
  ["text", "label"].filterMap (fun prop =>
    match getLiteral obj ["properties", prop, "expr", "Literal", "Value"] with
    | some val =>
        let clean := stripQuotes val.data
        if !clean.isEmpty && isReadable clean && !isNonTranslatable val.data then
          if !hasTargetChars clean target then
            some [("text", Json.str (String.mk clean)), ("property", Json.str prop)]
          else none
        else none
    | none => none)

/-- The button walk over `objects.values()` (source lines 218-229), run only
for `visualType` in `("actionButton", "button")`. -/
def scanButtons (objects : Json) (target : List Char) :
    Except PyErr (List Finding) := do
  let vals ← pyValues objects
  mapMCollect (fun si =>
      match si with
      | Json.arr items => pure ((items.map (btnObjFind target)).flatten)
      | _ => pure []) vals

/-- The `visual_type == "textbox"` gate around the textbox block. -/
def textboxStep (vtype visual objects : Json) (target : List Char) :
    Except PyErr (List Finding) :=
  if Json.beq vtype (Json.str "textbox") then scanTextbox visual objects target
  else pure []

/-- The `visual_type in ("actionButton", "button")` gate around the button
block. -/
def buttonStep (vtype objects : Json) (target : List Char) :
    Except PyErr (List Finding) :=
  if Json.beq vtype (Json.str "actionButton") || Json.beq vtype (Json.str "button")
  then scanButtons objects target else pure []

/-- Source `scan_visual`.  The input is `none` when `open`/`json.load` raises
one of the three caught exceptions (`JSONDecodeError`, `UnicodeDecodeError`,
`FileNotFoundError`), in which case the all-empty dict is returned; any other
exception raised while walking the parsed document propagates. -/
def scanVisual (input : Option Json) (target : List Char) (skip kg : List String) :
    Except PyErr Cats :=
  match input with
  | none => .ok emptyCats
  | some data => do
      let visual ← pyGetD data "visual" (Json.obj [])
      let vtype ← pyGetD data "visualType" (Json.str "")
      let vco ← pyGetD visual "visualContainerObjects" (Json.obj [])
      let objects ← pyGetD visual "objects" (Json.obj [])
      let ts ← scanTitles vco target kg
      let pr ← scanProjections visual target skip kg
      let tb ← textboxStep vtype visual objects target
      let ph ← scanPlaceholders objects target
      let hd ← scanHeaders objects target
      let bt ← buttonStep vtype objects target
      pure [("title_subtitle", ts), ("displayname", pr.1), ("missing_displayname", pr.2),
            ("textbox", tb), ("placeholder", ph), ("header_text", hd), ("button_text", bt)]

/-- Python `os.path.basename(os.path.dirname(fp))`: the name of the file's
immediate parent directory (for slash-separated relative paths). -/
def pageId (fp : String) : String :=
  match (fp.splitOn "/").reverse with
  | _ :: dir :: _ => dir
  | _ => ""

/-- Python `os.path.relpath(fp, root)` for the common case of a file lying
under the root; other paths are returned unchanged. -/
def relpath (root fp : String) : String :=
  if (root ++ "/").isPrefixOf fp then fp.drop (root.length + 1) else fp

/-- Sort a path-keyed file listing, as `sorted(glob.glob(...))` does. -/
def sortFiles (files : List (String × Option Json)) : List (String × Option Json) :=
  List.insertionSort (fun a b => a.1 ≤ b.1) files

/-- Body of the `scan_page_names` loop for one `page.json` file.  A `none`
content models any exception from `open`/`json.load`, all of which the
source catches with `continue`; the walk of the parsed data is outside
that `try` and can raise. -/
def pageFind (target : List Char) (kg : List String) (entry : String × Option Json) :
    Except PyErr (List Finding) :=
  match entry.2 with
  | none => .ok []
  | some data => do
      let dnj ← pyGetD data "displayName" (Json.str "")
      if jTruthy dnj then do
        let dn ← asStr dnj
        if isReadable dn.data && !isNonTranslatable dn.data then
          if !kg.contains dn && !hasTargetChars dn.data target then
            pure [[("page_id", Json.str (pageId entry.1)), ("displayName", Json.str dn)]]
          else pure []
        else pure []
      else pure []

/-- A per-file entry of the `visuals` result of `scan_all`. -/
structure FileFinding where
  file : String
  cats : Cats

/-- Result of `scan_all`. -/
structure ScanResult where
  visuals : List FileFinding
  pages : List Finding

/-- Lookup in a category dict with default `[]` (`vf.get(cat, [])`). -/
def catGet (cats : Cats) (k : String) : List Finding :=
  (alookup cats k).getD []

/-- Truthiness of `any(cats.values())`: some category list is nonempty. -/
def anyNonEmptyCats (cats : Cats) : Bool :=
  cats.any (fun kv => !kv.2.isEmpty)

/-- Body of the `scan_all` loop for one `visual.json` file: scan it and keep
the file only when some category is nonempty. -/
def visFile (pagesDir : String) (target : List Char) (skip kg : List String)
    (entry : String × Option Json) : Except PyErr (List FileFinding) := do
  let cats ← scanVisual entry.2 target skip kg
  if anyNonEmptyCats cats then pure [⟨relpath pagesDir entry.1, cats⟩]
  else pure []

/-- Source `scan_all` on an already-sorted file listing. -/
def scanAllOn (pagesDir : String) (sortedV sortedP : List (String × Option Json))
    (target : List Char) (skip kg : List String) : Except PyErr ScanResult := do
  let vis ← mapMCollect (visFile pagesDir target skip kg) sortedV
  let pgs ← mapMCollect (pageFind target kg) sortedP
  pure ⟨vis, pgs⟩

/-- Source `scan_all`: both globs are sorted before scanning.  The two file
listings model `glob("**/visual.json")` and `glob("*/page.json")`; a `none`
content is a file whose `open`/`json.load` raised. -/
def scanAll (pagesDir : String) (visualFiles pageFiles : List (String × Option Json))
    (target : List Char) (skip kg : List String) : Except PyErr ScanResult :=
  scanAllOn pagesDir (sortFiles visualFiles) (sortFiles pageFiles) target skip kg

/-- Python `str()` of a finding value, as interpolated by the report's
f-strings (scalar values rendered exactly; containers, which no reachable
finding contains, rendered schematically). -/
def pyStr : Json → String
  | .str s => s
  | .num n => toString n
  | .bool true => "True"
  | .bool false => "False"
  | .null => "None"
  | .arr _ => "[...]"
  | .obj _ => "\x7b...\x7d"

/-- Membership `k in item` on a finding dict. -/
def hasKeyF (f : Finding) (k : String) : Bool :=
  f.any (fun kv => kv.1 == k)

/-- Indexing `item[k]` on a finding dict (keys are present when accessed). -/
def getF (f : Finding) (k : String) : Json :=
  (alookup f k).getD Json.null

/-- Labels `_CAT_LABELS`. -/
def catLabel : String → String
  | "title_subtitle" => "Title/Subtitle"
  | "displayname" => "DisplayName (no target-lang chars)"
  | "missing_displayname" => "Missing displayName"
  | "textbox" => "Textbox content"
  | "placeholder" => "Placeholder text"
  | "header_text" => "Header/label text"
  | "button_text" => "Button text"
  | _ => ""

/-- One `    - …` line of the report for one finding (source lines 307-316). -/
def itemLines (item : Finding) : List String :=
  if hasKeyF item "text" then
    let extra :=
      if hasKeyF item "section" then "  [" ++ pyStr (getF item "section") ++ "]"
      else if hasKeyF item "nativeQueryRef" && jTruthy (getF item "nativeQueryRef") then
        "  (nqr: " ++ pyStr (getF item "nativeQueryRef") ++ ")"
      else ""
    ["    - \"" ++ pyStr (getF item "text") ++ "\"" ++ extra]
  else if hasKeyF item "nativeQueryRef" then
    ["    - nqr: \"" ++ pyStr (getF item "nativeQueryRef") ++ "\"  [bucket: " ++
      pyStr ((alookup item "bucket").getD (Json.str "")) ++ "]"]
  else []

/-- Per-category block of one file's findings. -/
def catLines (cats : Cats) (cat : String) : List String :=
  let items := catGet cats cat
  if items.isEmpty then []
  else ("  " ++ catLabel cat ++ " (" ++ toString items.length ++ "):") ::
    (items.map itemLines).flatten

/-- Per-file block of the report (source lines 299-320). -/
def fileLines (vf : FileFinding) : List String :=
  let body := (allCats.map (catLines vf.cats)).flatten
  if body.isEmpty then [] else ("File: " ++ vf.file) :: body ++ [""]

/-- Total count for one category across every file (`totals[cat]`). -/
def catCount (visuals : List FileFinding) (cat : String) : Nat :=
  (visuals.map (fun vf => (catGet vf.cats cat).length)).sum

/-- Source `format_findings`: the detailed plain-text report. -/
def formatFindings (r : ScanResult) : String :=
  if r.visuals.isEmpty && r.pages.isEmpty then "No suspected untranslated content found."
  else
    let headerL : List String :=
      ["TRANSLATION AUDIT — DETAILED FINDINGS", String.mk (List.replicate 55 '='), ""]
    let pageBlock : List String :=
      if !r.pages.isEmpty then
        ("UNTRANSLATED PAGE NAMES (" ++ toString r.pages.length ++ "):") ::
          r.pages.map (fun p =>
            "  " ++ pyStr (getF p "page_id") ++ ": \"" ++ pyStr (getF p "displayName") ++ "\"")
          ++ [""]
      else []
    let fileBlocks : List String := (r.visuals.map fileLines).flatten
    let totals : List (String × Nat) := allCats.map (fun c => (c, catCount r.visuals c))
    let totalAll : Nat := (totals.map (fun t => t.2)).sum + r.pages.length
    let summary : List String :=
      [String.mk (List.replicate 55 '-'), "SUMMARY:"] ++
      (if !r.pages.isEmpty then ["  Page names: " ++ toString r.pages.length] else []) ++
      (totals.filterMap (fun t =>
        if t.2 ≠ 0 then some ("  " ++ catLabel t.1 ++ ": " ++ toString t.2) else none)) ++
      ["  TOTAL: " ++ toString totalAll, ""]
    String.intercalate "\n" (headerL ++ pageBlock ++ fileBlocks ++ summary)

/-- Source `scan_english_remaining` after target/exception resolution: the
full scan piped into the report formatter. -/
def scanEnglishRemaining (pagesDir : String) (visualFiles pageFiles : List (String × Option Json))
    (target : List Char) (skip kg : List String) : Except PyErr String := do
  let res ← scanAll pagesDir visualFiles pageFiles target skip kg
  pure (formatFindings res)

/-- Coverage counters for one `visual.json` file in `_validate_coverage`
(source lines 344-357): `(projections with a truthy nativeQueryRef,
of those the ones whose dict has a displayName key)`.  The `try` wraps only
`open`/`json.load` (with a bare `except Exception`, modelled by `none`);
the walk of the parsed data can raise. -/
def covFile (entry : String × Option Json) : Except PyErr (Nat × Nat) :=
  match entry.2 with
  | none => .ok (0, 0)
  | some data => do
      let v ← pyGetD data "visual" (Json.obj [])
      let q ← pyGetD v "query" (Json.obj [])
      let qs ← pyGetD q "queryState" (Json.obj [])
      let buckets ← pyValues qs
      buckets.foldlM (fun acc bucket =>
        match bucket with
        | Json.obj fs => do
            let projs ← pyIter (objGetD fs "projections" (Json.arr []))
            projs.foldlM (fun acc2 proj =>
              match proj with
              | Json.obj pfs =>
                  if jTruthyO (alookup pfs "nativeQueryRef") then
                    .ok (acc2.1 + 1,
                         acc2.2 + (if (alookup pfs "displayName").isSome then 1 else 0))
                  else .ok acc2
              | _ => .error PyErr.attributeError) acc
        | _ => .ok acc) (0, 0)

/-- The independent projection re-walk of `_validate_coverage` over every
`visual.json` (this glob is not sorted; the counts are order-independent). -/
def coverageWalk (files : List (String × Option Json)) : Except PyErr (Nat × Nat) :=
  files.foldlM (fun acc e => do
    let p ← covFile e
    pure (acc.1 + p.1, acc.2 + p.2)) ((0 : Nat), (0 : Nat))

/-- Sum of every category length across every file (`issue_count` minus the
page findings). -/
def sumCats (visuals : List FileFinding) : Nat :=
  (visuals.map (fun vf => (allCats.map (fun c => (catGet vf.cats c).length)).sum)).sum

/-- The quantities computed by `_validate_coverage` before text rendering. -/
structure CoverageReport where
  totalProj : Nat
  projWithDn : Nat
  cov : ℚ
  issueCount : Nat
  verdict : String
deriving DecidableEq

/-- Source `_validate_coverage` up to its numeric/verdict content: the scan,
the projection re-walk, the guarded coverage percentage and the verdict.
The rational `cov` models Python's float division exactly on these inputs. -/
def validateCoverage (pagesDir : String) (visualFiles pageFiles : List (String × Option Json))
    (target : List Char) (skip kg : List String) : Except PyErr CoverageReport := do
  let res ← scanAll pagesDir visualFiles pageFiles target skip kg
  let tp ← coverageWalk visualFiles
  let issues := res.pages.length + sumCats res.visuals
  pure ⟨tp.1, tp.2,
        (if tp.1 = 0 then 0 else (tp.2 : ℚ) / (tp.1 : ℚ) * 100),
        issues,
        if issues = 0 then "PASS" else "FAIL"⟩

/-- Input to `load_exceptions`: the path was empty or not a file; or the
file existed but `open`/`json.load` raised; or it parsed to a value. -/
inductive ExcSource where
  | missing
  | unparsable
  | parsed (data : Json)

/-- Update a set with a Python iterable (`set.update(x)`): list elements,
dict keys, or the characters of a string; else `TypeError`. -/
def pyUpdateIter : Json → Except PyErr (List Json)
  | .arr xs => .ok xs
  | .obj fs => .ok ((dedupFields fs).map (fun kv => Json.str kv.1))
  | .str s => .ok (s.data.map (fun c => Json.str (String.mk [c])))
  | _ => .error .typeError

/-- Source `load_exceptions`.  The `try` covers only `open`/`json.load`; the
four field extractions run unprotected on the parsed value.  The two result
sets are modelled as lists of the inserted values, in insertion order. -/
def loadExceptions : ExcSource → Except PyErr (List Json × List Json)
  | .missing => .ok ([], [])
  | .unparsable => .ok ([], [])
  | .parsed data => do
      let hasTr ← pyContains data "translations"
      let kg1 ← if hasTr then do
          let t ← pyIndex data "translations"
          pyValues t
        else pure []
      let hasSk ← pyContains data "skip"
      let sk1 ← if hasSk then do
          let v ← pyIndex data "skip"
          pyUpdateIter v
        else pure []
      let hasSk2 ← pyContains data "skip_nqr"
      let sk2 ← if hasSk2 then do
          let v ← pyIndex data "skip_nqr"
          pyUpdateIter v
        else pure []
      let hasKg ← pyContains data "known_good"
      let kg2 ← if hasKg then do
          let v ← pyIndex data "known_good"
          pyUpdateIter v
        else pure []
      pure (sk1 ++ sk2, kg1 ++ kg2)

/-- A finding whose `text` entry (when it is a string) is free of target
characters. -/
def targetFreeFinding (target : List Char) (f : Finding) : Prop :=
  ∀ s : String, alookup f "text" = some (Json.str s) → hasTargetChars s.data target = false

/-- A projection whose `displayName` key is present but maps to `""`. -/
def emptyDnProj (nqr : String) : Json :=
  Json.obj [("nativeQueryRef", Json.str nqr), ("displayName", Json.str "")]

/-- A minimal visual document holding exactly one `emptyDnProj` projection. -/
def emptyDnDoc (nqr : String) : Json :=
  Json.obj [("visual", Json.obj [("query", Json.obj [("queryState",
    Json.obj [("b", Json.obj [("projections", Json.arr [emptyDnProj nqr])])])])])]

/-- The categories `scan_visual` produces for `emptyDnDoc` when the ref is
truthy and not skipped: one missing-displayname finding, nothing else. -/
def emptyDnCats (nqr : String) : Cats :=
  [("title_subtitle", []), ("displayname", []),
   ("missing_displayname", [[("nativeQueryRef", Json.str nqr), ("bucket", Json.str "b")]]),
   ("textbox", []), ("placeholder", []), ("header_text", []), ("button_text", [])]

example : isNonTranslatable "#a3f".data = true := by decide
example : isNonTranslatable "#a3".data = false := by decide
example : isNonTranslatable "rgba(1,2,3,0.5)".data = true := by decide
example : isNonTranslatable "-12.5D".data = true := by decide
example : isNonTranslatable "TRUE".data = true := by decide
example : isNonTranslatable "datetime'2024-01-01'".data = true := by decide
example : isNonTranslatable "null".data = true := by decide
example : isNonTranslatable "https://x.io/a".data = true := by decide
example : isNonTranslatable "12 / 34,56".data = true := by decide
example : isNonTranslatable "Arial, sans-serif".data = true := by decide
example : isNonTranslatable "Arial looks nice".data = false := by decide
example : isNonTranslatable "Sales Overview".data = false := by decide
example : isNonTranslatable "'x'".data = true := by decide
example : isReadable "_internalToken".data = false := by decide
example : isReadable "plain words".data = true := by decide
example : isReadable "1234".data = false := by decide
example : hasTargetChars "Försäljning".data "åäöÅÄÖ".data = true := by decide
example : hasTargetChars "Sales".data "åäöÅÄÖ".data = false := by decide

lemma exc_bind_ok {α β : Type} {x : Except PyErr α} {f : α → Except PyErr β} {b : β}
    (h : x >>= f = .ok b) : ∃ a, x = .ok a ∧ f a = .ok b := by
  cases x with
  | ok a => exact ⟨a, rfl, h⟩
  | error e => simp [Bind.bind, Except.bind] at h

lemma ite_chain (a : Prop) [Decidable a] (b c : Bool) :
    (if a then true else if b = true then true else if c = true then true else false) =
      (decide a || b || c) := by
  by_cases ha : a <;> cases b <;> cases c <;> simp [ha]

/-- C2: `_is_non_translatable(s)` holds iff, after de-quoting, `s` is shorter
than 2 characters, or `s` matches one of the patterns (hex color, rgb/rgba
color, bare signed number with optional D/L suffix, boolean literal,
`datetime'...'` literal, the literal `null`, absolute http(s) URL, an
all-digits/punctuation/whitespace string), or `s` contains a font-family
keyword together with a comma or a (single-)quote character. -/
theorem is_non_translatable_spec (raw : List Char) :
    isNonTranslatable raw =
      (decide ((stripQuotes (pyStrip raw)).length < 2) ||
       matchHexColor (stripQuotes (pyStrip raw)) || matchRgba (stripQuotes (pyStrip raw)) ||
       matchNumber (stripQuotes (pyStrip raw)) || matchBoolLit (stripQuotes (pyStrip raw)) ||
       matchDatetime (stripQuotes (pyStrip raw)) || matchNullLit (stripQuotes (pyStrip raw)) ||
       matchUrl (stripQuotes (pyStrip raw)) || matchSymbolic (stripQuotes (pyStrip raw)) ||
       (fontSearch (stripQuotes (pyStrip raw)) &&
         ((stripQuotes (pyStrip raw)).contains ',' ||
          (stripQuotes (pyStrip raw)).contains '\''))) := by
  unfold isNonTranslatable nonTranslatablePatterns
  rw [ite_chain]
  simp only [List.any_cons, List.any_nil, Bool.or_false, Bool.or_assoc]

/-- C5 (amended): an empty/nonexistent path, and any `open`/`json.load`
failure, yield two empty exception sets without raising. -/
theorem load_exceptions_recoverable :
    loadExceptions .missing = .ok ([], []) ∧ loadExceptions .unparsable = .ok ([], []) :=
  ⟨rfl, rfl⟩

/-- C5 (counterexample): a file whose content parses to the JSON number `5`
makes `load_exceptions` raise `TypeError` (from `"translations" in data`),
so loading is not exception-free for every file content. -/
theorem load_exceptions_raises_on_number :
    loadExceptions (.parsed (Json.num 5)) = .error PyErr.typeError := rfl

/-- C6 (amended): a file that fails to parse as JSON yields the all-empty
category dict from `scan_visual`, and a scan over only unparsable files
returns an empty result rather than raising. -/
theorem scan_parse_failures_recoverable (pagesDir : String) (target : List Char)
    (skip kg : List String) :
    scanVisual none target skip kg = .ok emptyCats ∧
    scanAll pagesDir [("a/visual.json", none)] [("b/page.json", none)] target skip kg =
      .ok ⟨[], []⟩ :=
  ⟨rfl, rfl⟩

/-- C6 (counterexample): a file whose content is the valid JSON document `[]`
(a top-level array) makes `scan_visual` raise `AttributeError` from
`data.get("visual", {})`, so the entry points are not raise-free on every
input. -/
theorem scan_visual_raises_on_array :
    scanVisual (some (Json.arr [])) [] [] [] = .error PyErr.attributeError := rfl

lemma scanVisual_some_ok {d : Json} {target : List Char} {skip kg : List String} {cats : Cats}
    (h : scanVisual (some d) target skip kg = .ok cats) :
    ∃ visual vtype vco objects ts pr tb ph hd bt,
      pyGetD d "visual" (Json.obj []) = .ok visual ∧
      pyGetD d "visualType" (Json.str "") = .ok vtype ∧
      pyGetD visual "visualContainerObjects" (Json.obj []) = .ok vco ∧
      pyGetD visual "objects" (Json.obj []) = .ok objects ∧
      scanTitles vco target kg = .ok ts ∧
      scanProjections visual target skip kg = .ok pr ∧
      textboxStep vtype visual objects target = .ok tb ∧
      scanPlaceholders objects target = .ok ph ∧
      scanHeaders objects target = .ok hd ∧
      buttonStep vtype objects target = .ok bt ∧
      cats = [("title_subtitle", ts), ("displayname", pr.1), ("missing_displayname", pr.2),
              ("textbox", tb), ("placeholder", ph), ("header_text", hd), ("button_text", bt)] := by
  unfold scanVisual at h
  obtain ⟨visual, h1, h⟩ := exc_bind_ok h
  obtain ⟨vtype, h2, h⟩ := exc_bind_ok h
  obtain ⟨vco, h3, h⟩ := exc_bind_ok h
  obtain ⟨objects, h4, h⟩ := exc_bind_ok h
  obtain ⟨ts, h5, h⟩ := exc_bind_ok h
  obtain ⟨pr, h6, h⟩ := exc_bind_ok h
  obtain ⟨tb, h7, h⟩ := exc_bind_ok h
  obtain ⟨ph, h8, h⟩ := exc_bind_ok h
  obtain ⟨hd, h9, h⟩ := exc_bind_ok h
  obtain ⟨bt, h10, h⟩ := exc_bind_ok h
  refine ⟨visual, vtype, vco, objects, ts, pr, tb, ph, hd, bt,
    h1, h2, h3, h4, h5, h6, h7, h8, h9, h10, ?_⟩
  simpa [pure, Except.pure] using h.symm

/-- C9: every category dict returned by `scan_visual` — including the one
returned on a parse failure — carries exactly the seven category keys
`title_subtitle`, `displayname`, `missing_displayname`, `textbox`,
`placeholder`, `header_text`, `button_text`, in dict order, each bound to a
list; no key is missing and no extra key occurs. -/
theorem scan_visual_category_keys (target : List Char) (skip kg : List String) :
    (∀ input cats, scanVisual input target skip kg = .ok cats →
       cats.map Prod.fst = allCats) ∧
    scanVisual none target skip kg = .ok emptyCats := by
  constructor
  · intro input cats h
    match input with
    | none =>
        have he : emptyCats = cats := by
          simp only [scanVisual] at h
          injection h
        subst he; rfl
    | some d =>
        obtain ⟨_, _, _, _, _, _, _, _, _, _, _, _, _, _, _, _, _, _, _, _, hcats⟩ :=
          scanVisual_some_ok h
        subst hcats; rfl
  · rfl

/-- Witness for C9 at a concrete input. -/
theorem scan_visual_category_keys_witness : emptyCats.map Prod.fst = allCats :=
  (scan_visual_category_keys [] [] []).1 none emptyCats rfl

lemma Json.beq_str_iff (x : Json) (t : String) :
    Json.beq x (Json.str t) = true ↔ x = Json.str t := by
  cases x <;> simp [Json.beq]

/-- C8: for a visual document whose `visualType` is not `"textbox"`, the
`textbox` category of the scan result is empty; symmetrically, when the
`visualType` is neither `"actionButton"` nor `"button"`, the `button_text`
category is empty. -/
theorem visual_type_gates {fields : List (String × Json)} {target : List Char}
    {skip kg : List String} {cats : Cats}
    (h : scanVisual (some (Json.obj fields)) target skip kg = .ok cats) :
    (objGetD fields "visualType" (Json.str "") ≠ Json.str "textbox" →
       alookup cats "textbox" = some []) ∧
    (objGetD fields "visualType" (Json.str "") ≠ Json.str "actionButton" →
     objGetD fields "visualType" (Json.str "") ≠ Json.str "button" →
       alookup cats "button_text" = some []) := by
  obtain ⟨visual, vtype, vco, objects, ts, pr, tb, ph, hd, bt,
    h1, h2, h3, h4, h5, h6, h7, h8, h9, h10, hcats⟩ := scanVisual_some_ok h
  have hv : vtype = objGetD fields "visualType" (Json.str "") := by
    have := h2
    simp only [pyGetD] at this
    injection this with this
    exact this.symm
  constructor
  · intro hne
    have hbeq : Json.beq vtype (Json.str "textbox") = false := by
      rw [Bool.eq_false_iff]
      intro hb
      exact hne (hv ▸ (Json.beq_str_iff _ _).mp hb)
    unfold textboxStep at h7
    rw [hbeq] at h7
    simp only [Bool.false_eq_true, if_false, pure, Except.pure, Except.ok.injEq] at h7
    subst hcats
    subst h7
    rfl
  · intro hne1 hne2
    have hbeq1 : Json.beq vtype (Json.str "actionButton") = false := by
      rw [Bool.eq_false_iff]
      intro hb
      exact hne1 (hv ▸ (Json.beq_str_iff _ _).mp hb)
    have hbeq2 : Json.beq vtype (Json.str "button") = false := by
      rw [Bool.eq_false_iff]
      intro hb
      exact hne2 (hv ▸ (Json.beq_str_iff _ _).mp hb)
    unfold buttonStep at h10
    rw [hbeq1, hbeq2] at h10
    simp only [Bool.or_false, Bool.false_eq_true, if_false, pure, Except.pure,
      Except.ok.injEq] at h10
    subst hcats
    subst h10
    rfl

/-- Witness for C8 at a concrete input (the empty document, whose default
`visualType` is `""`). -/
theorem visual_type_gates_witness :
    alookup emptyCats "textbox" = some [] ∧ alookup emptyCats "button_text" = some [] := by
  have h := @visual_type_gates [] [] [] [] emptyCats rfl
  have ht : objGetD [] "visualType" (Json.str "") ≠ Json.str "textbox" := by
    intro hx
    have hx' : Json.str "" = Json.str "textbox" := hx
    have hs : ("" : String) = "textbox" := by injection hx'
    exact absurd hs (by decide)
  have ha : objGetD [] "visualType" (Json.str "") ≠ Json.str "actionButton" := by
    intro hx
    have hx' : Json.str "" = Json.str "actionButton" := hx
    have hs : ("" : String) = "actionButton" := by injection hx'
    exact absurd hs (by decide)
  have hb : objGetD [] "visualType" (Json.str "") ≠ Json.str "button" := by
    intro hx
    have hx' : Json.str "" = Json.str "button" := hx
    have hs : ("" : String) = "button" := by injection hx'
    exact absurd hs (by decide)
  exact ⟨h.1 ht, h.2 ha hb⟩

lemma ite_nest {α : Type} (a b c d e : Bool) (x y : α) :
    (if (a && b) = true then (if (c && d && e) = true then x else y) else y) =
      (if (c && a && b && d && e) = true then x else y) := by
  cases a <;> cases b <;> cases c <;> cases d <;> cases e <;> rfl

lemma projClassify_missing (target : List Char) (skip kg : List String)
    {fields : List (String × Json)} {nqr : String}
    (hn : alookup fields "nativeQueryRef" = some (Json.str nqr)) (hne : nqr ≠ "")
    (hdn : jTruthyO (alookup fields "displayName") = false) :
    projClassify target skip kg (Json.obj fields) =
      .ok (if skip.contains nqr then ProjOut.nothing else ProjOut.missing (Json.str nqr)) := by
  have hb : (nqr == "") = false := by simpa using hne
  simp only [projClassify]
  rw [hn, hdn]
  simp [jTruthyO, jTruthy, hb, strMemO]
  split <;> rfl

lemma projClassify_eq_dn (target : List Char) (skip kg : List String)
    {fields : List (String × Json)} {nqr : String}
    (hn : alookup fields "nativeQueryRef" = some (Json.str nqr)) (hne : nqr ≠ "")
    (hd : alookup fields "displayName" = some (Json.str nqr)) :
    projClassify target skip kg (Json.obj fields) =
      .ok (if (!skip.contains nqr && !isNonTranslatable nqr.data && isReadable nqr.data &&
               !kg.contains nqr && !hasTargetChars nqr.data target) = true
           then ProjOut.dname nqr (Json.str nqr) else ProjOut.nothing) := by
  have hb : (nqr == "") = false := by simpa using hne
  simp only [projClassify]
  rw [hn, hd]
  simp only [jTruthyO, jTruthy, hb, Bool.not_false, Bool.and_true, Bool.true_and,
    Bool.not_true, Bool.and_false, Bool.false_and, Bool.and_self, if_false,
    Bool.false_eq_true, pyEqO, Json.beq, if_true, Option.getD_some, strMemO]
  rw [ite_nest]
  rw [beq_self_eq_true]
  simp only [if_true]
  split <;> rfl

/-- C3: for a projection carrying a (truthy) string `nativeQueryRef`:
without a `displayName` key it produces exactly one missing-displayname
outcome unless the ref is in `skip_nqr`; with a `displayName` equal to the
ref it produces a displayname outcome iff the ref is not skipped and the
value is neither non-translatable, unreadable, known-good, nor
target-bearing; and without a `displayName` key it can never produce a
displayname outcome. -/
theorem projection_classification (target : List Char) (skip kg : List String)
    {fields : List (String × Json)} {nqr : String}
    (hn : alookup fields "nativeQueryRef" = some (Json.str nqr)) (hne : nqr ≠ "") :
    (alookup fields "displayName" = none →
      projClassify target skip kg (Json.obj fields) =
        .ok (if skip.contains nqr then ProjOut.nothing else ProjOut.missing (Json.str nqr))) ∧
    (alookup fields "displayName" = some (Json.str nqr) →
      projClassify target skip kg (Json.obj fields) =
        .ok (if (!skip.contains nqr && !isNonTranslatable nqr.data && isReadable nqr.data &&
                 !kg.contains nqr && !hasTargetChars nqr.data target) = true
             then ProjOut.dname nqr (Json.str nqr) else ProjOut.nothing)) ∧
    (alookup fields "displayName" = none →
      ∀ d q, projClassify target skip kg (Json.obj fields) ≠ .ok (ProjOut.dname d q)) := by
  refine ⟨?_, ?_, ?_⟩
  · intro hd
    exact projClassify_missing target skip kg hn hne (by rw [hd]; rfl)
  · intro hd
    exact projClassify_eq_dn target skip kg hn hne hd
  · intro hd d q hc
    rw [projClassify_missing target skip kg hn hne (by rw [hd]; rfl)] at hc
    by_cases hs : skip.contains nqr = true
    · rw [if_pos hs] at hc
      exact ProjOut.noConfusion (Except.ok.inj hc)
    · rw [if_neg hs] at hc
      exact ProjOut.noConfusion (Except.ok.inj hc)

/-- Witness for C3 at a concrete projection. -/
theorem projection_classification_witness :
    projClassify [] [] [] (Json.obj [("nativeQueryRef", Json.str "Total")]) =
      .ok (if List.contains [] "Total" then ProjOut.nothing
           else ProjOut.missing (Json.str "Total")) :=
  (@projection_classification [] [] [] [("nativeQueryRef", Json.str "Total")] "Total"
    rfl (by decide)).1 rfl

/-- C10 (counterexample): with `skip_nqr = {"Sum(Sales)"}`, a projection with
a truthy `nativeQueryRef` and `displayName` present but `""` yields NO
missing-displayname finding — the scan walk is also gated by `skip_nqr` —
while the coverage walk still counts it as having a displayName. -/
theorem missing_displayname_skipnqr_cex :
    scanVisual (some (emptyDnDoc "Sum(Sales)")) [] ["Sum(Sales)"] [] = .ok emptyCats ∧
    coverageWalk [("f/visual.json", some (emptyDnDoc "Sum(Sales)"))] = .ok (1, 1) :=
  ⟨rfl, rfl⟩

/-- C10 (amended): for a projection with a truthy `nativeQueryRef` that is
not in `skip_nqr` and a `displayName` key present but mapped to `""`, the
scan walk records a missing-displayname finding (it tests truthiness of the
value), while the coverage walk counts the projection as having a
displayName (it tests key presence) — the two walks classify it
differently. -/
theorem truthiness_vs_presence_divergence (nqr : String) (target : List Char)
    (skip kg : List String) (hne : nqr ≠ "") (hskip : skip.contains nqr = false) :
    scanVisual (some (emptyDnDoc nqr)) target skip kg = .ok (emptyDnCats nqr) ∧
    coverageWalk [("f/visual.json", some (emptyDnDoc nqr))] = .ok (1, 1) := by
  have hb : (nqr == "") = false := by simpa using hne
  have hnin : ¬ (skip.contains nqr = true) := by
    intro hc
    rw [hskip] at hc
    exact Bool.false_ne_true hc
  have hp : projClassify target skip kg
      (Json.obj [("nativeQueryRef", Json.str nqr), ("displayName", Json.str "")]) =
      .ok (ProjOut.missing (Json.str nqr)) := by
    have h := @projClassify_missing target skip kg
      [("nativeQueryRef", Json.str nqr), ("displayName", Json.str "")] nqr rfl hne rfl
    rw [h, if_neg hnin]
  constructor
  · simp [scanVisual, emptyDnDoc, emptyDnProj, scanProjections, scanTitles, pyGetIter, pyGetD,
      objGetD, alookup, pyItems, pyIter, pyValues, dedupFields, dedupGo,
      mapMCollect, scanProjBucket, hp, textboxStep, buttonStep, scanPlaceholders,
      scanHeaders, Json.beq, emptyDnCats, emptyCats, dnFinding, msFinding,
      bind, Except.bind, pure, Except.pure, hb]
  · simp [coverageWalk, covFile, List.foldlM, pyGetD, objGetD, alookup,
      pyValues, dedupFields, dedupGo, emptyDnDoc, emptyDnProj, pyIter, jTruthyO, jTruthy,
      hb, bind, Except.bind, pure, Except.pure]

/-- Witness for the amended C10 at a concrete ref. -/
theorem truthiness_vs_presence_divergence_witness :
    scanVisual (some (emptyDnDoc "X")) [] [] [] = .ok (emptyDnCats "X") ∧
    coverageWalk [("f/visual.json", some (emptyDnDoc "X"))] = .ok (1, 1) :=
  truthiness_vs_presence_divergence "X" [] [] [] (by decide) (by decide)

/-- C4: the coverage validator's percentage is the guarded ratio
`with_displayname / total * 100`, equal to 0 with no division error when no
projection carries a `nativeQueryRef`; and the verdict is `PASS` iff the
total issue count (the sum of every category across every file plus the
page-name findings) is exactly zero, regardless of the percentage. -/
theorem coverage_validator_spec (pagesDir : String)
    (visualFiles pageFiles : List (String × Option Json)) (target : List Char)
    (skip kg : List String) (r : CoverageReport)
    (h : validateCoverage pagesDir visualFiles pageFiles target skip kg = .ok r) :
    (r.totalProj = 0 → r.cov = 0) ∧
    (r.totalProj ≠ 0 → r.cov = (r.projWithDn : ℚ) / (r.totalProj : ℚ) * 100) ∧
    (r.verdict = "PASS" ↔ r.issueCount = 0) ∧
    ∃ res, scanAll pagesDir visualFiles pageFiles target skip kg = .ok res ∧
      r.issueCount = res.pages.length + sumCats res.visuals := by
  unfold validateCoverage at h
  obtain ⟨res, h1, h⟩ := exc_bind_ok h
  obtain ⟨tp, h2, h⟩ := exc_bind_ok h
  have hr : r = ⟨tp.1, tp.2, (if tp.1 = 0 then 0 else (tp.2 : ℚ) / (tp.1 : ℚ) * 100),
      res.pages.length + sumCats res.visuals,
      if res.pages.length + sumCats res.visuals = 0 then "PASS" else "FAIL"⟩ := by
    simpa [pure, Except.pure] using h.symm
  subst hr
  refine ⟨?_, ?_, ?_, res, h1, rfl⟩
  · intro h0
    simp only at h0
    simp [h0]
  · intro h0
    simp only at h0
    simp [h0]
  · by_cases hz : res.pages.length + sumCats res.visuals = 0
    · simp [hz]
    · simp [hz]

/-- Witness for C4 at a concrete (empty) directory. -/
theorem coverage_validator_spec_witness :
    ((⟨0, 0, 0, 0, "PASS"⟩ : CoverageReport).verdict = "PASS" ↔
      (⟨0, 0, 0, 0, "PASS"⟩ : CoverageReport).issueCount = 0) :=
  (coverage_validator_spec "d" [] [] [] [] [] ⟨0, 0, 0, 0, "PASS"⟩ rfl).2.2.1

lemma pairwise_and_of {α : Type} {R S : α → α → Prop} {l : List α}
    (hR : l.Pairwise R) (hS : l.Pairwise S) : l.Pairwise (fun a b => R a b ∧ S a b) := by
  induction l with
  | nil => exact List.Pairwise.nil
  | cons a t ih =>
      rcases List.pairwise_cons.mp hR with ⟨hRa, hRt⟩
      rcases List.pairwise_cons.mp hS with ⟨hSa, hSt⟩
      exact List.pairwise_cons.mpr ⟨fun b hb => ⟨hRa b hb, hSa b hb⟩, ih hRt hSt⟩

lemma sortFiles_eq_of_perm {l1 l2 : List (String × Option Json)}
    (hperm : l1.Perm l2) (hnd : (l1.map Prod.fst).Nodup) :
    sortFiles l1 = sortFiles l2 := by
  haveI hTot : IsTotal (String × Option Json) (fun a b => a.1 ≤ b.1) :=
    ⟨fun a b => le_total a.1 b.1⟩
  haveI hTrans : IsTrans (String × Option Json) (fun a b => a.1 ≤ b.1) :=
    ⟨fun a b c h1 h2 => le_trans h1 h2⟩
  have hp : (sortFiles l1).Perm (sortFiles l2) :=
    (List.perm_insertionSort _ l1).trans (hperm.trans (List.perm_insertionSort _ l2).symm)
  have hnd1 : ((sortFiles l1).map Prod.fst).Nodup :=
    (((List.perm_insertionSort _ l1).map Prod.fst).nodup_iff).mpr hnd
  have hnd2 : ((sortFiles l2).map Prod.fst).Nodup := ((hp.map Prod.fst).nodup_iff).mp hnd1
  have hlt1 : (sortFiles l1).Pairwise (fun a b => a.1 < b.1) := by
    have hle := List.sorted_insertionSort (fun a b : String × Option Json => a.1 ≤ b.1) l1
    have hne : (sortFiles l1).Pairwise (fun a b => a.1 ≠ b.1) := List.pairwise_map.mp hnd1
    exact (pairwise_and_of hle hne).imp (fun h => lt_of_le_of_ne h.1 h.2)
  have hlt2 : (sortFiles l2).Pairwise (fun a b => a.1 < b.1) := by
    have hle := List.sorted_insertionSort (fun a b : String × Option Json => a.1 ≤ b.1) l2
    have hne : (sortFiles l2).Pairwise (fun a b => a.1 ≠ b.1) := List.pairwise_map.mp hnd2
    exact (pairwise_and_of hle hne).imp (fun h => lt_of_le_of_ne h.1 h.2)
  haveI : IsAntisymm (String × Option Json) (fun a b => a.1 < b.1) :=
    ⟨fun a b h1 h2 => absurd h2 (not_lt.mpr (le_of_lt h1))⟩
  exact List.eq_of_perm_of_sorted hp hlt1 hlt2

lemma visuals_shape (pagesDir : String) (target : List Char) (skip kg : List String) :
    ∀ (l : List (String × Option Json)) (res : List FileFinding),
      mapMCollect (visFile pagesDir target skip kg) l = .ok res →
      (∀ v ∈ res, anyNonEmptyCats v.cats = true) ∧
      ∃ inc : List (String × Option Json), inc.Sublist l ∧ res.map FileFinding.file =
        inc.map (fun e => relpath pagesDir e.1) := by
  intro l
  induction l with
  | nil =>
      intro res h
      simp only [mapMCollect] at h
      have he : ([] : List FileFinding) = res := by injection h
      subst he
      exact ⟨by simp, [], List.Sublist.refl _, rfl⟩
  | cons a t ih =>
      intro res h
      simp only [mapMCollect] at h
      obtain ⟨out, h1, h⟩ := exc_bind_ok h
      obtain ⟨bs, h2, h⟩ := exc_bind_ok h
      have hres : out ++ bs = res := by simpa [pure, Except.pure] using h
      subst hres
      obtain ⟨hall, inc, hsub, hmap⟩ := ih bs h2
      unfold visFile at h1
      obtain ⟨cats, hc1, hc2⟩ := exc_bind_ok h1
      by_cases hne : anyNonEmptyCats cats = true
      · rw [if_pos hne] at hc2
        have hout : [(⟨relpath pagesDir a.1, cats⟩ : FileFinding)] = out := by
          simpa [pure, Except.pure] using hc2
        subst hout
        refine ⟨?_, a :: inc, hsub.cons₂ a, ?_⟩
        · intro v hv
          rcases List.mem_append.mp hv with hv1 | hv2
          · rcases List.mem_singleton.mp hv1 with rfl
            exact hne
          · exact hall v hv2
        · simpa using hmap
      · rw [if_neg hne] at hc2
        have hout : ([] : List FileFinding) = out := by simpa [pure, Except.pure] using hc2
        subst hout
        exact ⟨by simpa using hall, inc, hsub.cons a, by simpa using hmap⟩

/-- C7: scanning the same directory twice with the same target profile and
exception sets yields byte-identical report text (the result depends only on
the set of discovered files, not on the enumeration order, since both globs
are sorted); the sorted listing is lexicographically ordered by path and the
result's files follow it in order; and a file appears in the result only
when at least one of its categories is nonempty. -/
theorem scan_deterministic_sorted (pagesDir : String) (target : List Char)
    (skip kg : List String) (vf1 vf2 pf1 pf2 : List (String × Option Json))
    (hv : vf1.Perm vf2) (hpf : pf1.Perm pf2)
    (hnv : (vf1.map Prod.fst).Nodup) (hnp : (pf1.map Prod.fst).Nodup) :
    scanEnglishRemaining pagesDir vf1 pf1 target skip kg =
      scanEnglishRemaining pagesDir vf2 pf2 target skip kg ∧
    (sortFiles vf1).Pairwise (fun a b => a.1 ≤ b.1) ∧
    ∀ res, scanAll pagesDir vf1 pf1 target skip kg = .ok res →
      (∀ v ∈ res.visuals, anyNonEmptyCats v.cats = true) ∧
      ∃ inc : List (String × Option Json), inc.Sublist (sortFiles vf1) ∧
        res.visuals.map FileFinding.file = inc.map (fun e => relpath pagesDir e.1) := by
  have hsv := sortFiles_eq_of_perm hv hnv
  have hsp := sortFiles_eq_of_perm hpf hnp
  refine ⟨?_, ?_, ?_⟩
  · unfold scanEnglishRemaining scanAll
    rw [hsv, hsp]
  · haveI : IsTotal (String × Option Json) (fun a b => a.1 ≤ b.1) :=
      ⟨fun a b => le_total a.1 b.1⟩
    haveI : IsTrans (String × Option Json) (fun a b => a.1 ≤ b.1) :=
      ⟨fun a b c h1 h2 => le_trans h1 h2⟩
    exact List.sorted_insertionSort _ _
  · intro res h
    unfold scanAll scanAllOn at h
    obtain ⟨vis, h1, h⟩ := exc_bind_ok h
    obtain ⟨pgs, h2, h⟩ := exc_bind_ok h
    have hres : ScanResult.mk vis pgs = res := by
      simpa [pure, Except.pure] using h
    subst hres
    obtain ⟨hall, inc, hsub, hmap⟩ := visuals_shape pagesDir target skip kg _ _ h1
    exact ⟨hall, inc, hsub, hmap⟩

/-- Witness for C7 at a concrete listing. -/
theorem scan_deterministic_sorted_witness :
    scanEnglishRemaining "d" [("d/a/visual.json", none)] [] [] [] [] =
      scanEnglishRemaining "d" [("d/a/visual.json", none)] [] [] [] [] :=
  (scan_deterministic_sorted "d" [] [] [] [("d/a/visual.json", none)]
    [("d/a/visual.json", none)] [] [] (List.Perm.refl _) (List.Perm.refl _)
    (by simp) (by simp)).1

lemma dropWhile_idem {α : Type} (p : α → Bool) :
    ∀ l : List α, List.dropWhile p (List.dropWhile p l) = List.dropWhile p l
  | [] => rfl
  | a :: l => by
      by_cases h : p a = true
      · rw [List.dropWhile_cons, if_pos h, dropWhile_idem p l]
      · rw [List.dropWhile_cons, if_neg h, List.dropWhile_cons, if_neg h]

lemma head_dropWhile_false {α : Type} (p : α → Bool) :
    ∀ (l : List α) {c : α} {t : List α}, List.dropWhile p l = c :: t → p c = false
  | [], c, t => by intro h; cases h
  | a :: l, c, t => by
      intro h
      by_cases ha : p a = true
      · rw [List.dropWhile_cons, if_pos ha] at h
        exact head_dropWhile_false p l h
      · rw [List.dropWhile_cons, if_neg ha] at h
        injection h with h1 h2
        subst h1
        simpa using ha

lemma pyStrip_head_false {cs : List Char} {c : Char} {t : List Char}
    (h : pyStrip cs = c :: t) : isPySpace c = false := by
  unfold pyStrip at h
  have hsuf : ((cs.dropWhile isPySpace).reverse.dropWhile isPySpace) <:+
      (cs.dropWhile isPySpace).reverse := List.dropWhile_suffix _
  have hpre : ((cs.dropWhile isPySpace).reverse.dropWhile isPySpace).reverse <+:
      cs.dropWhile isPySpace := List.reverse_suffix.mp (by rwa [List.reverse_reverse])
  rw [h] at hpre
  obtain ⟨r, hr⟩ := hpre
  exact head_dropWhile_false isPySpace cs (by rw [← hr]; rfl)

lemma pyStrip_idem (cs : List Char) : pyStrip (pyStrip cs) = pyStrip cs := by
  have h1 : List.dropWhile isPySpace (pyStrip cs) = pyStrip cs := by
    cases hz : pyStrip cs with
    | nil => simp
    | cons c t =>
        have hc := pyStrip_head_false hz
        rw [List.dropWhile_cons, if_neg (by simp [hc])]
  have h2 : List.dropWhile isPySpace (pyStrip cs).reverse = (pyStrip cs).reverse := by
    have hrr : (pyStrip cs).reverse =
        List.dropWhile isPySpace (List.dropWhile isPySpace cs).reverse := by
      unfold pyStrip
      rw [List.reverse_reverse]
    rw [hrr, dropWhile_idem]
  calc pyStrip (pyStrip cs)
      = ((List.dropWhile isPySpace (pyStrip cs)).reverse.dropWhile isPySpace).reverse := rfl
    _ = ((pyStrip cs).reverse.dropWhile isPySpace).reverse := by rw [h1]
    _ = ((pyStrip cs).reverse).reverse := by rw [h2]
    _ = pyStrip cs := List.reverse_reverse _

lemma stripQuotes_pyStrip (cs : List Char) : stripQuotes (pyStrip cs) = stripQuotes cs := by
  unfold stripQuotes
  rw [pyStrip_idem]

lemma isNonTranslatable_of_short {val : List Char}
    (h : (stripQuotes (pyStrip val)).length < 2) : isNonTranslatable val = true := by
  unfold isNonTranslatable
  rw [if_pos h]

lemma stripQuotes_ne_nil_of_not_nt {val : List Char} (h : isNonTranslatable val = false) :
    stripQuotes val ≠ [] := by
  intro hz
  have hlen : (stripQuotes (pyStrip val)).length < 2 := by
    rw [stripQuotes_pyStrip, hz]
    simp
  rw [isNonTranslatable_of_short hlen] at h
  exact absurd h (by decide)

lemma val_ne_nil_of_not_nt {val : List Char} (h : isNonTranslatable val = false) :
    val ≠ [] := by
  intro hz
  subst hz
  rw [isNonTranslatable_of_short (by decide)] at h
  exact absurd h (by decide)

lemma mapMCollect_ok_forall {α β : Type} {P : β → Prop} {f : α → Except PyErr (List β)} :
    ∀ {l : List α} {res : List β}, mapMCollect f l = .ok res →
      (∀ a ∈ l, ∀ out, f a = .ok out → ∀ b ∈ out, P b) → ∀ b ∈ res, P b := by
  intro l
  induction l with
  | nil =>
      intro res h _ b hb
      simp only [mapMCollect] at h
      have he : ([] : List β) = res := by injection h
      subst he
      cases hb
  | cons a t ih =>
      intro res h hf b hb
      simp only [mapMCollect] at h
      obtain ⟨out, h1, h⟩ := exc_bind_ok h
      obtain ⟨bs, h2, h⟩ := exc_bind_ok h
      have he : out ++ bs = res := by simpa [pure, Except.pure] using h
      subst he
      rcases List.mem_append.mp hb with hb1 | hb2
      · exact hf a (List.mem_cons_self a t) out h1 b hb1
      · exact ih h2 (fun x hx => hf x (List.mem_cons_of_mem a hx)) b hb2

lemma titleFind_target_free {target : List Char} {kg : List String} {sect : String}
    {obj : Json} {f : Finding} (h : titleFind target kg sect obj = some f) :
    targetFreeFinding target f := by
  cases hg : getLiteral obj ["properties", "text", "expr", "Literal", "Value"] with
  | none =>
      simp only [titleFind, hg] at h
      exact Option.noConfusion h
  | some val =>
      simp only [titleFind, hg] at h
      by_cases hd : titleDecision target kg val.data = true
      · rw [if_pos hd] at h
        injection h with h
        subst h
        intro s hs
        have hs' : some (Json.str (String.mk (stripQuotes val.data))) = some (Json.str s) := hs
        have he : String.mk (stripQuotes val.data) = s := by
          injection hs' with hs''
          injection hs''
        subst he
        unfold titleDecision at hd
        simp only [Bool.and_eq_true, Bool.not_eq_true'] at hd
        exact hd.2
      · rw [if_neg hd] at h
        cases h

lemma projClassify_dname_target_free {target : List Char} {skip kg : List String}
    {proj : Json} {dn : String} {nqrj : Json}
    (h : projClassify target skip kg proj = .ok (ProjOut.dname dn nqrj)) :
    hasTargetChars dn.data target = false := by
  cases proj with
  | obj fs =>
      simp only [projClassify] at h
      split at h
      · split at h
        · exact ProjOut.noConfusion (Except.ok.inj h)
        · exact ProjOut.noConfusion (Except.ok.inj h)
      · split at h
        · split at h
          · split at h
            · split at h
              · split at h
                · have hok := Except.ok.inj h
                  injection hok with hdn hq
                  subst hdn
                  rename_i hguard
                  simp only [Bool.and_eq_true, Bool.not_eq_true'] at hguard
                  exact hguard.2
                · exact ProjOut.noConfusion (Except.ok.inj h)
              · exact ProjOut.noConfusion (Except.ok.inj h)
            · exact Except.noConfusion h
          · exact ProjOut.noConfusion (Except.ok.inj h)
        · exact ProjOut.noConfusion (Except.ok.inj h)
  | null => exact Except.noConfusion h
  | bool b => exact Except.noConfusion h
  | num n => exact Except.noConfusion h
  | str s => exact Except.noConfusion h
  | arr xs => exact Except.noConfusion h

lemma textRunFind_target_free {target : List Char} {run : Json} {out : List Finding}
    (h : textRunFind target run = .ok out) : ∀ f ∈ out, targetFreeFinding target f := by
  cases run with
  | obj fs =>
      simp only [textRunFind] at h
      obtain ⟨v, h1, h2⟩ := exc_bind_ok h
      split at h2
      · split at h2
        · have he : [[("text", Json.str (String.mk (pyStrip v.data)))]] = out := by
            simpa [pure, Except.pure] using h2
          subst he
          intro f hf
          rcases List.mem_singleton.mp hf with rfl
          intro s hs
          have hs' : some (Json.str (String.mk (pyStrip v.data))) = some (Json.str s) := hs
          have he2 : String.mk (pyStrip v.data) = s := by
            injection hs' with hs''
            injection hs''
          subst he2
          rename_i hguard
          simpa using hguard
        · have he : ([] : List Finding) = out := by simpa [pure, Except.pure] using h2
          subst he
          intro f hf
          cases hf
      · have he : ([] : List Finding) = out := by simpa [pure, Except.pure] using h2
        subst he
        intro f hf
        cases hf
  | null => exact Except.noConfusion h
  | bool b => exact Except.noConfusion h
  | num n => exact Except.noConfusion h
  | str s => exact Except.noConfusion h
  | arr xs => exact Except.noConfusion h

lemma phObjFind_target_free {target : List Char} {obj : Json} {f : Finding}
    (h : phObjFind target obj = some f) : targetFreeFinding target f := by
  cases hg : getLiteral obj ["properties", "placeholder", "expr", "Literal", "Value"] with
  | none =>
      simp only [phObjFind, hg] at h
      exact Option.noConfusion h
  | some val =>
      simp only [phObjFind, hg] at h
      split at h
      · split at h
        · injection h with h
          subst h
          intro s hs
          have hs' : some (Json.str (String.mk (stripQuotes val.data))) = some (Json.str s) := hs
          have he : String.mk (stripQuotes val.data) = s := by
            injection hs' with hs''
            injection hs''
          subst he
          rename_i hguard
          simpa using hguard
        · exact Option.noConfusion h
      · exact Option.noConfusion h

lemma hdObjFind_target_free {target : List Char} {obj : Json} {f : Finding}
    (h : hdObjFind target obj = some f) : targetFreeFinding target f := by
  cases hg : getLiteral obj ["properties", "text", "expr", "Literal", "Value"] with
  | none =>
      simp only [hdObjFind, hg] at h
      exact Option.noConfusion h
  | some val =>
      simp only [hdObjFind, hg] at h
      split at h
      · split at h
        · injection h with h
          subst h
          intro s hs
          have hs' : some (Json.str (String.mk (stripQuotes val.data))) = some (Json.str s) := hs
          have he : String.mk (stripQuotes val.data) = s := by
            injection hs' with hs''
            injection hs''
          subst he
          rename_i hguard
          simpa using hguard
        · exact Option.noConfusion h
      · exact Option.noConfusion h

lemma btnObjFind_target_free {target : List Char} {obj : Json} {f : Finding}
    (h : f ∈ btnObjFind target obj) : targetFreeFinding target f := by
  unfold btnObjFind at h
  obtain ⟨prop, _, hsome⟩ := List.mem_filterMap.mp h
  cases hg : getLiteral obj ["properties", prop, "expr", "Literal", "Value"] with
  | none =>
      rw [hg] at hsome
      exact Option.noConfusion hsome
  | some val =>
      rw [hg] at hsome
      simp only at hsome
      split at hsome
      · split at hsome
        · injection hsome with hsome
          subst hsome
          intro s hs
          have hs' : some (Json.str (String.mk (stripQuotes val.data))) = some (Json.str s) := hs
          have he : String.mk (stripQuotes val.data) = s := by
            injection hs' with hs''
            injection hs''
          subst he
          rename_i hguard
          simpa using hguard
        · exact Option.noConfusion hsome
      · exact Option.noConfusion hsome

lemma scanTitles_target_free {vco : Json} {target : List Char} {kg : List String}
    {ts : List Finding} (h : scanTitles vco target kg = .ok ts) :
    ∀ f ∈ ts, targetFreeFinding target f := by
  unfold scanTitles at h
  refine mapMCollect_ok_forall h ?_
  intro sect _ out hout
  obtain ⟨items, h1, h2⟩ := exc_bind_ok hout
  have he : items.filterMap (titleFind target kg sect) = out := by
    simpa [pure, Except.pure] using h2
  subst he
  intro f hf
  obtain ⟨obj, _, hsome⟩ := List.mem_filterMap.mp hf
  exact titleFind_target_free hsome

lemma scanProjBucket_dname {target : List Char} {skip kg : List String}
    {kv : String × Json} {out : List (String × ProjOut)}
    (h : scanProjBucket target skip kg kv = .ok out) :
    ∀ bo ∈ out, ∀ dn nqrj, bo.2 = ProjOut.dname dn nqrj →
      hasTargetChars dn.data target = false := by
  obtain ⟨k, v⟩ := kv
  cases v with
  | obj fs =>
      simp only [scanProjBucket] at h
      obtain ⟨projs, h1, h2⟩ := exc_bind_ok h
      refine mapMCollect_ok_forall h2 ?_
      intro p _ o ho
      obtain ⟨po, hp1, hp2⟩ := exc_bind_ok ho
      have he : [(k, po)] = o := by simpa [pure, Except.pure] using hp2
      subst he
      intro bo hbo
      rcases List.mem_singleton.mp hbo with rfl
      intro dn nqrj hdn
      simp only at hdn
      subst hdn
      exact projClassify_dname_target_free hp1
  | null =>
      have he : ([] : List (String × ProjOut)) = out := by
        simpa [scanProjBucket, pure, Except.pure] using h
      subst he
      intro bo hbo
      cases hbo
  | bool b =>
      have he : ([] : List (String × ProjOut)) = out := by
        simpa [scanProjBucket, pure, Except.pure] using h
      subst he
      intro bo hbo
      cases hbo
  | num n =>
      have he : ([] : List (String × ProjOut)) = out := by
        simpa [scanProjBucket, pure, Except.pure] using h
      subst he
      intro bo hbo
      cases hbo
  | str s =>
      have he : ([] : List (String × ProjOut)) = out := by
        simpa [scanProjBucket, pure, Except.pure] using h
      subst he
      intro bo hbo
      cases hbo
  | arr xs =>
      have he : ([] : List (String × ProjOut)) = out := by
        simpa [scanProjBucket, pure, Except.pure] using h
      subst he
      intro bo hbo
      cases hbo

lemma scanProjections_target_free {visual : Json} {target : List Char}
    {skip kg : List String} {pr : List Finding × List Finding}
    (h : scanProjections visual target skip kg = .ok pr) :
    (∀ f ∈ pr.1, targetFreeFinding target f) ∧ (∀ f ∈ pr.2, targetFreeFinding target f) := by
  unfold scanProjections at h
  obtain ⟨q, h1, h⟩ := exc_bind_ok h
  obtain ⟨qs, h2, h⟩ := exc_bind_ok h
  obtain ⟨bs, h3, h⟩ := exc_bind_ok h
  obtain ⟨outs, h4, h⟩ := exc_bind_ok h
  have hpr : (outs.filterMap dnFinding, outs.filterMap msFinding) = pr := by
    simpa [pure, Except.pure] using h
  subst hpr
  have houts : ∀ bo ∈ outs, ∀ dn nqrj, bo.2 = ProjOut.dname dn nqrj →
      hasTargetChars dn.data target = false :=
    mapMCollect_ok_forall h4 (fun kv _ out hout => scanProjBucket_dname hout)
  constructor
  · intro f hf
    obtain ⟨bo, hbo, hsome⟩ := List.mem_filterMap.mp hf
    obtain ⟨b, o⟩ := bo
    cases o with
    | dname dn nqrj =>
        simp only [dnFinding] at hsome
        injection hsome with hsome
        subst hsome
        intro s hs
        have hs' : some (Json.str dn) = some (Json.str s) := hs
        have he : dn = s := by
          injection hs' with hs''
          injection hs''
        subst he
        exact houts (b, ProjOut.dname dn nqrj) hbo dn nqrj rfl
    | nothing => exact Option.noConfusion hsome
    | missing nqrj => exact Option.noConfusion hsome
  · intro f hf
    obtain ⟨bo, hbo, hsome⟩ := List.mem_filterMap.mp hf
    obtain ⟨b, o⟩ := bo
    cases o with
    | missing nqrj =>
        simp only [msFinding] at hsome
        injection hsome with hsome
        subst hsome
        intro s hs
        have hs' : (none : Option Json) = some (Json.str s) := hs
        exact Option.noConfusion hs'
    | nothing => exact Option.noConfusion hsome
    | dname dn nqrj => exact Option.noConfusion hsome

lemma paraFind_target_free {target : List Char} {para : Json} {out : List Finding}
    (h : paraFind target para = .ok out) : ∀ f ∈ out, targetFreeFinding target f := by
  cases para with
  | obj fs =>
      simp only [paraFind] at h
      obtain ⟨runs, h1, h2⟩ := exc_bind_ok h
      exact mapMCollect_ok_forall h2 (fun r _ o ho => textRunFind_target_free ho)
  | null => exact Except.noConfusion h
  | bool b => exact Except.noConfusion h
  | num n => exact Except.noConfusion h
  | str s => exact Except.noConfusion h
  | arr xs => exact Except.noConfusion h

lemma genFind_target_free {target : List Char} {gen : Json} {out : List Finding}
    (h : genFind target gen = .ok out) : ∀ f ∈ out, targetFreeFinding target f := by
  cases gen with
  | obj fs =>
      simp only [genFind] at h
      obtain ⟨paras, h1, h2⟩ := exc_bind_ok h
      exact mapMCollect_ok_forall h2 (fun p _ o ho => paraFind_target_free ho)
  | null => exact Except.noConfusion h
  | bool b => exact Except.noConfusion h
  | num n => exact Except.noConfusion h
  | str s => exact Except.noConfusion h
  | arr xs => exact Except.noConfusion h

lemma scanTextbox_target_free {visual objects : Json} {target : List Char}
    {out : List Finding} (h : scanTextbox visual objects target = .ok out) :
    ∀ f ∈ out, targetFreeFinding target f := by
  unfold scanTextbox at h
  obtain ⟨gens, h1, h⟩ := exc_bind_ok h
  obtain ⟨a, h2, h⟩ := exc_bind_ok h
  obtain ⟨paras, h3, h⟩ := exc_bind_ok h
  obtain ⟨b, h4, h⟩ := exc_bind_ok h
  have he : a ++ b = out := by simpa [pure, Except.pure] using h
  subst he
  intro f hf
  rcases List.mem_append.mp hf with hf | hf
  · exact mapMCollect_ok_forall h2 (fun g _ o ho => genFind_target_free ho) f hf
  · exact mapMCollect_ok_forall h4 (fun p _ o ho => paraFind_target_free ho) f hf

lemma scanPlaceholders_target_free {objects : Json} {target : List Char}
    {out : List Finding} (h : scanPlaceholders objects target = .ok out) :
    ∀ f ∈ out, targetFreeFinding target f := by
  unfold scanPlaceholders at h
  obtain ⟨vals, h1, h2⟩ := exc_bind_ok h
  refine mapMCollect_ok_forall h2 ?_
  intro si hm o ho
  cases si <;>
    first
    | · have he : ([] : List Finding) = o := by simpa [pure, Except.pure] using ho
        subst he
        intro f hf
        cases hf
    | · rename_i items
        have he : items.filterMap (phObjFind target) = o := by
          simpa [pure, Except.pure] using ho
        subst he
        intro f hf
        obtain ⟨obj, _, hsome⟩ := List.mem_filterMap.mp hf
        exact phObjFind_target_free hsome

lemma scanHeaders_target_free {objects : Json} {target : List Char}
    {out : List Finding} (h : scanHeaders objects target = .ok out) :
    ∀ f ∈ out, targetFreeFinding target f := by
  unfold scanHeaders at h
  obtain ⟨its, h1, h2⟩ := exc_bind_ok h
  refine mapMCollect_ok_forall h2 ?_
  intro kv hm o ho
  by_cases hk : kv.1 = "header"
  · rw [if_pos hk] at ho
    obtain ⟨k, v⟩ := kv
    cases v <;>
      first
      | · have he : ([] : List Finding) = o := by simpa [pure, Except.pure] using ho
          subst he
          intro f hf
          cases hf
      | · rename_i items
          have he : items.filterMap (hdObjFind target) = o := by
            simpa [pure, Except.pure] using ho
          subst he
          intro f hf
          obtain ⟨obj, _, hsome⟩ := List.mem_filterMap.mp hf
          exact hdObjFind_target_free hsome
  · rw [if_neg hk] at ho
    have he : ([] : List Finding) = o := by simpa [pure, Except.pure] using ho
    subst he
    intro f hf
    cases hf

lemma scanButtons_target_free {objects : Json} {target : List Char}
    {out : List Finding} (h : scanButtons objects target = .ok out) :
    ∀ f ∈ out, targetFreeFinding target f := by
  unfold scanButtons at h
  obtain ⟨vals, h1, h2⟩ := exc_bind_ok h
  refine mapMCollect_ok_forall h2 ?_
  intro si hm o ho
  cases si <;>
    first
    | · have he : ([] : List Finding) = o := by simpa [pure, Except.pure] using ho
        subst he
        intro f hf
        cases hf
    | · rename_i items
        have he : (items.map (btnObjFind target)).flatten = o := by
          simpa [pure, Except.pure] using ho
        subst he
        intro f hf
        obtain ⟨l, hl, hfl⟩ := List.mem_flatten.mp hf
        obtain ⟨obj, _, rfl⟩ := List.mem_map.mp hl
        exact btnObjFind_target_free hfl

/-- C1: the reportable-candidate rule for extracted title/subtitle strings —
a string is reported iff it is not non-translatable, its de-quoted form is
readable, contains no target character, and is not in `known_good` (the
source's truthiness guards are subsumed, because empty strings are
non-translatable); and, across every category of the scan result, no finding
ever carries a text containing a target character. -/
theorem reportable_candidate_rule (target : List Char) (skip kg : List String) :
    (∀ val : List Char, titleDecision target kg val = true ↔
      (isNonTranslatable val = false ∧ isReadable (stripQuotes val) = true ∧
       hasTargetChars (stripQuotes val) target = false ∧
       kg.contains (String.mk (stripQuotes val)) = false)) ∧
    (∀ input cats, scanVisual input target skip kg = .ok cats →
      ∀ c ∈ cats, ∀ f ∈ c.2, targetFreeFinding target f) := by
  constructor
  · intro val
    unfold titleDecision
    simp only [Bool.and_eq_true, Bool.not_eq_true']
    constructor
    · rintro ⟨⟨⟨⟨⟨ha, hb⟩, hc⟩, hd⟩, he⟩, hf⟩
      exact ⟨hc, hd, hf, he⟩
    · rintro ⟨hc, hd, hf, he⟩
      refine ⟨⟨⟨⟨⟨?_, ?_⟩, hc⟩, hd⟩, he⟩, hf⟩
      · have hv := val_ne_nil_of_not_nt hc
        cases val with
        | nil => exact absurd rfl hv
        | cons a t => rfl
      · have hv := stripQuotes_ne_nil_of_not_nt hc
        cases hsq : stripQuotes val with
        | nil => exact absurd hsq hv
        | cons a t => rfl
  · intro input cats h c hc f hf
    match input with
    | none =>
        have he : emptyCats = cats := by
          simp only [scanVisual] at h
          injection h
        subst he
        simp only [emptyCats, List.mem_cons, List.mem_singleton] at hc
        rcases hc with rfl | rfl | rfl | rfl | rfl | rfl | rfl | hc
        · cases hf
        · cases hf
        · cases hf
        · cases hf
        · cases hf
        · cases hf
        · cases hf
        · cases hc
    | some d =>
        obtain ⟨visual, vtype, vco, objects, ts, pr, tb, ph, hd, bt,
          h1, h2, h3, h4, h5, h6, h7, h8, h9, h10, hcats⟩ := scanVisual_some_ok h
        subst hcats
        simp only [List.mem_cons, List.mem_singleton] at hc
        rcases hc with rfl | rfl | rfl | rfl | rfl | rfl | rfl | hc
        · exact scanTitles_target_free h5 f hf
        · exact (scanProjections_target_free h6).1 f hf
        · exact (scanProjections_target_free h6).2 f hf
        · unfold textboxStep at h7
          by_cases hvt : Json.beq vtype (Json.str "textbox") = true
          · rw [if_pos hvt] at h7
            exact scanTextbox_target_free h7 f hf
          · rw [if_neg hvt] at h7
            have he : ([] : List Finding) = tb := by simpa [pure, Except.pure] using h7
            subst he
            cases hf
        · exact scanPlaceholders_target_free h8 f hf
        · exact scanHeaders_target_free h9 f hf
        · unfold buttonStep at h10
          by_cases hvt : (Json.beq vtype (Json.str "actionButton") ||
              Json.beq vtype (Json.str "button")) = true
          · rw [if_pos hvt] at h10
            exact scanButtons_target_free h10 f hf
          · rw [if_neg hvt] at h10
            have he : ([] : List Finding) = bt := by simpa [pure, Except.pure] using h10
            subst he
            cases hf
        · cases hc

/-- Witness for C1 at a concrete string and target set. -/
theorem reportable_candidate_rule_witness :
    titleDecision "ö".data [] "Hi".data = true :=
  ((reportable_candidate_rule "ö".data [] []).1 "Hi".data).mpr
    ⟨by decide, by decide, by decide, by decide⟩
